import Mathlib

/-!
Verification of the TDLOG weather-routing engine (`Source/` Python modules)
against its specification.

The Python modules are shallowly embedded.  Numeric code is modelled over an
arbitrary `LinearOrderedField` with a `FloorRing` instance (instantiable with
`ℚ` for executable evaluation and with `ℝ` for the analytic facts).  Decimal
literals of the source are embedded as the exact rationals they denote.
Python's `%` on a positive divisor is `pymod` below.  Fallible code
(exceptions) is modelled with `Option`/`Except`.

The router (`routeur.py`) calls the transcendental geodesy helpers of
`outils.py` and `np.cos`/`np.hypot`/`atan2`; these have no computable field
realisation, so the router model is parameterised by a `PhysParams` record
holding them, and `realPhysParams` below instantiates it with the exact real
embedding of `outils.py` / `conventions.py`.  All router theorems are proved
for every instantiation (hence in particular for `realPhysParams`), while
concrete evaluations use simple rational instantiations.
-/

set_option maxHeartbeats 2000000
set_option maxRecDepth 6000
set_option linter.unusedSectionVars false

/- ============================================================
   conventions.py
   ============================================================ -/

/-- `MPS_TO_KNOT = 1.9438444924406048` from `conventions.py` (exact decimal). -/
def MPS_TO_KNOT : ℚ := 1.9438444924406048

/-- `KNOT_TO_MPS = 1.0 / MPS_TO_KNOT` from `conventions.py`. -/
def KNOT_TO_MPS : ℚ := 1 / MPS_TO_KNOT

variable {α : Type} [LinearOrderedField α] [FloorRing α]

/-- Python's `x % y` for a positive divisor `y` (sign of the divisor):
`x % y = x - y * floor (x / y)`. -/
def pymod (x y : α) : α := x - y * ⌊x / y⌋

/-- `wrap_360` from `conventions.py`: `angle_deg % 360.0`. -/
def wrap_360 (angle_deg : α) : α := pymod angle_deg 360

/-- `wrap_180` from `conventions.py`: `(angle_deg + 180.0) % 360.0 - 180.0`. -/
def wrap_180 (angle_deg : α) : α := pymod (angle_deg + 180) 360 - 180

/-- `clamp` from `conventions.py`: `max(lo, min(hi, x))`. -/
def clamp (x lo hi : α) : α := max lo (min hi x)

/-- `compute_twa` from `conventions.py`:
`abs(wrap_180(wind_dir_from_deg - heading_deg))`. -/
def compute_twa (heading_deg wind_dir_from_deg : α) : α :=
  |wrap_180 (wind_dir_from_deg - heading_deg)|

/- Basic facts about `pymod`. -/

theorem pymod_eq_fract (x y : α) (hy : y ≠ 0) :
    pymod x y = y * Int.fract (x / y) := by
  unfold pymod Int.fract
  field_simp

theorem pymod_add_right (x y : α) (hy : y ≠ 0) :
    pymod (x + y) y = pymod x y := by
  rw [pymod_eq_fract _ _ hy, pymod_eq_fract _ _ hy]
  have h : (x + y) / y = x / y + 1 := by field_simp
  rw [h]
  rw [show x / y + 1 = x / y + (1 : ℤ) by push_cast; ring]
  rw [Int.fract_add_int]

theorem pymod_add_int_mul (x y : α) (hy : y ≠ 0) (n : ℤ) :
    pymod (x + n * y) y = pymod x y := by
  rw [pymod_eq_fract _ _ hy, pymod_eq_fract _ _ hy]
  have h : (x + n * y) / y = x / y + (n : α) := by field_simp
  rw [h, Int.fract_add_int]

theorem pymod_nonneg (x y : α) (hy : 0 < y) : 0 ≤ pymod x y := by
  rw [pymod_eq_fract _ _ (ne_of_gt hy)]
  exact mul_nonneg hy.le (Int.fract_nonneg _)

theorem pymod_lt (x y : α) (hy : 0 < y) : pymod x y < y := by
  rw [pymod_eq_fract _ _ (ne_of_gt hy)]
  calc y * Int.fract (x / y) < y * 1 := by
        exact mul_lt_mul_of_pos_left (Int.fract_lt_one _) hy
    _ = y := mul_one y

/- ============================================================
   polaire.py
   ============================================================ -/

/-- Total list indexing with default `0`, modelling in-range NumPy indexing. -/
def getA (l : List α) (i : ℕ) : α := l.getD i 0

/-- Matrix access `m[i, j]`, modelling in-range NumPy 2-D indexing. -/
def mget (m : List (List α)) (i j : ℕ) : α := getA (m.getD i []) j

/-- NumPy `arr.min()` for a non-empty array (junk value `0` on `[]`). -/
def listMin : List α → α
  | [] => 0
  | x :: xs => xs.foldl min x

/-- NumPy `arr.max()` for a non-empty array (junk value `0` on `[]`). -/
def listMax : List α → α
  | [] => 0
  | x :: xs => xs.foldl max x

/-- `np.searchsorted(a, v)` (side `left`) under the documented hypothesis that
`a` is sorted: the number of entries strictly below `v`. -/
def searchsorted (a : List α) (v : α) : ℕ := a.countP (fun x => decide (x < v))

/-- Flattening of a 2-D array, used for its global maximum. -/
def flat2 (m : List (List α)) : List α := m.foldr (fun r acc => r ++ acc) []

/-- The TWA folding prefix of `get_boat_speed` from `polaire.py`:
`twa = abs(twa) % 360; if twa > 180: twa = 360 - twa`. -/
def foldTWA (twa : α) : α :=
  let t := pymod |twa| 360
  if t > 180 then 360 - t else t

/-- `get_boat_speed` from `polaire.py`: bilinear interpolation of the polar
speed matrix at `(twa, tws)`, after folding `twa` to `[0,180]` and clamping
both coordinates to the table ranges; the result is clamped below at `0`. -/
def get_boat_speed (twa tws : α) (twa_array tws_array : List α)
    (speed_matrix : List (List α)) : α :=
  let twa1 := foldTWA twa
  let twa2 := clamp twa1 (listMin twa_array) (listMax twa_array)
  let tws2 := clamp tws (listMin tws_array) (listMax tws_array)
  let i := searchsorted twa_array twa2
  let j := searchsorted tws_array tws2
  let i_low := i - 1
  let i_high := min i (twa_array.length - 1)
  let j_low := j - 1
  let j_high := min j (tws_array.length - 1)
  let v_ll := mget speed_matrix i_low j_low
  let v_lh := mget speed_matrix i_low j_high
  let v_hl := mget speed_matrix i_high j_low
  let v_hh := mget speed_matrix i_high j_high
  let tx := if getA tws_array j_high = getA tws_array j_low then 0
            else (tws2 - getA tws_array j_low) /
                 (getA tws_array j_high - getA tws_array j_low)
  let ty := if getA twa_array i_high = getA twa_array i_low then 0
            else (twa2 - getA twa_array i_low) /
                 (getA twa_array i_high - getA twa_array i_low)
  let speed := v_ll * (1 - tx) * (1 - ty) + v_lh * tx * (1 - ty) +
               v_hl * (1 - tx) * ty + v_hh * tx * ty
  max speed 0

/-- `get_max_speed` from `polaire.py`: `speed_matrix.max()`. -/
def get_max_speed (speed_matrix : List (List α)) : α := listMax (flat2 speed_matrix)

/-- `compute_vmg_upwind` from `polaire.py`; `cosdeg` is the embedding of
`np.cos(np.radians(.))` supplied by the physics parameters. -/
def compute_vmg_upwind (cosdeg : α → α) (twa_deg boat_speed_kn : α) : α :=
  boat_speed_kn * cosdeg twa_deg

/-- `compute_vmg_downwind` from `polaire.py`. -/
def compute_vmg_downwind (cosdeg : α → α) (twa_deg boat_speed_kn : α) : α :=
  boat_speed_kn * cosdeg (180 - twa_deg)

/-- `find_optimal_twa_upwind` from `polaire.py`: scan integer TWA in
`range(25, 81)` maximising upwind VMG; strict improvement keeps the lowest
tying angle just like the Python `>` test. -/
def find_optimal_twa_upwind (cosdeg : α → α) (tws_kn : α)
    (twa_array tws_array : List α) (speed_matrix : List (List α)) :
    Option α × α :=
  (List.range' 25 56 1).foldl (fun acc n =>
    let twa : α := (n : α)
    let v := get_boat_speed twa tws_kn twa_array tws_array speed_matrix
    let vmg := compute_vmg_upwind cosdeg twa v
    if acc.2 < vmg then (some twa, vmg) else acc) (none, -1000000000)

/-- `find_optimal_twa_downwind` from `polaire.py`: scan `range(100, 176)`
maximising downwind VMG. -/
def find_optimal_twa_downwind (cosdeg : α → α) (tws_kn : α)
    (twa_array tws_array : List α) (speed_matrix : List (List α)) :
    Option α × α :=
  (List.range' 100 76 1).foldl (fun acc n =>
    let twa : α := (n : α)
    let v := get_boat_speed twa tws_kn twa_array tws_array speed_matrix
    let vmg := compute_vmg_downwind cosdeg twa v
    if acc.2 < vmg then (some twa, vmg) else acc) (none, -1000000000)

/- The folding symmetry behind claim C5. -/

/-- Reduction of an angle already in `[0, 360)` to `[0, 180]`. -/
def foldHalf (u : α) : α := if u ≤ 180 then u else 360 - u

theorem foldTWA_eq_foldHalf (t : α) : foldTWA t = foldHalf (pymod t 360) := by
  have h360 : (0 : α) < 360 := by norm_num
  rcases le_or_lt 0 t with ht | ht
  · rw [foldTWA, abs_of_nonneg ht, foldHalf]
    rcases lt_or_le (180 : α) (pymod t 360) with h | h
    · rw [if_pos h, if_neg (not_le_of_lt h)]
    · rw [if_neg (not_lt_of_le h), if_pos h]
  · have habs : |t| = -t := abs_of_neg ht
    rw [foldTWA, habs, foldHalf]
    rw [pymod_eq_fract _ _ (ne_of_gt h360), pymod_eq_fract _ _ (ne_of_gt h360)]
    have hneg : (-t) / 360 = -(t / 360) := by ring
    rw [hneg]
    rcases eq_or_ne (Int.fract (t / 360)) 0 with hf | hf
    · rw [Int.fract_neg_eq_zero.mpr hf, hf]
      norm_num
    · rw [Int.fract_neg hf]
      have h0 : 0 < Int.fract (t / 360) := lt_of_le_of_ne (Int.fract_nonneg _) (Ne.symm hf)
      have h1 : Int.fract (t / 360) < 1 := Int.fract_lt_one _
      set u := Int.fract (t / 360) with hu
      have hval : (360 : α) * (1 - u) = 360 - 360 * u := by ring
      rw [hval]
      rcases le_or_lt (360 * u) 180 with hc | hc
      · rcases eq_or_lt_of_le hc with hc180 | hc180
        · rw [if_neg (by push_neg; linarith), if_pos hc]
          linarith
        · rw [if_pos (by linarith), if_pos hc]
          ring
      · rw [if_neg (by push_neg; linarith), if_neg (by push_neg; linarith)]

theorem foldTWA_neg (t : α) : foldTWA (-t) = foldTWA t := by
  unfold foldTWA
  rw [abs_neg]

theorem foldTWA_sub (t : α) : foldTWA (360 - t) = foldTWA t := by
  have h360 : (360 : α) ≠ 0 := by norm_num
  rw [foldTWA_eq_foldHalf, foldTWA_eq_foldHalf]
  have hper : pymod (360 - t) 360 = pymod (-t) 360 := by
    have h : (360 : α) - t = -t + (1 : ℤ) * 360 := by push_cast; ring
    rw [h, pymod_add_int_mul _ _ h360]
  rw [hper]
  have h360pos : (0 : α) < 360 := by norm_num
  rw [pymod_eq_fract _ _ h360, pymod_eq_fract _ _ h360]
  have hneg : (-t) / 360 = -(t / 360) := by ring
  rw [hneg]
  rcases eq_or_ne (Int.fract (t / 360)) 0 with hf | hf
  · rw [Int.fract_neg_eq_zero.mpr hf, hf]
  · rw [Int.fract_neg hf]
    have h0 : 0 < Int.fract (t / 360) := lt_of_le_of_ne (Int.fract_nonneg _) (Ne.symm hf)
    have h1 : Int.fract (t / 360) < 1 := Int.fract_lt_one _
    set u := Int.fract (t / 360) with hu
    unfold foldHalf
    have hval : (360 : α) * (1 - u) = 360 - 360 * u := by ring
    rw [hval]
    rcases le_or_lt (360 * u) 180 with hc | hc
    · rcases eq_or_lt_of_le hc with hc180 | hc180
      · rw [if_pos (by linarith), if_pos hc]
        linarith
      · rw [if_neg (by push_neg; linarith), if_pos hc]
        ring
    · rw [if_pos (by linarith), if_neg (by push_neg; linarith)]

/-- C5: `boat_speed(twa, tws) = boat_speed(360 - twa, tws) = boat_speed(-twa, tws)`
for every `twa`, `tws` and every polar table (in particular every table with
monotonically increasing axes, as the claim states). -/
theorem get_boat_speed_symm (twa tws : α) (twa_array tws_array : List α)
    (speed_matrix : List (List α)) :
    get_boat_speed twa tws twa_array tws_array speed_matrix =
      get_boat_speed (360 - twa) tws twa_array tws_array speed_matrix ∧
    get_boat_speed twa tws twa_array tws_array speed_matrix =
      get_boat_speed (-twa) tws twa_array tws_array speed_matrix := by
  constructor
  · unfold get_boat_speed
    rw [foldTWA_sub]
  · unfold get_boat_speed
    rw [foldTWA_neg]

/- ============================================================
   routeur.py: tack sign and maneuver penalty
   ============================================================ -/

/-- Kind of maneuver reported on a waypoint (`"tack"` / `"gybe"` in the source). -/
inductive Maneuver where
  | tack
  | gybe
  deriving DecidableEq, Repr

/-- `_sign_of_tack` from `routeur.py`:
`delta = (wind - heading + 540) % 360 - 180`, zero within `1e-6`, else sign. -/
def sign_of_tack (heading_deg wind_dir_from_deg : α) : Int :=
  let delta := pymod (wind_dir_from_deg - heading_deg + 540) 360 - 180
  if |delta| < 1 / 1000000 then 0
  else if delta > 0 then 1 else -1

/-- `PENALTY_TACK = 180.0` from `routeur.py`. -/
def PENALTY_TACK : ℚ := 180

/-- `PENALTY_GYBE = 120.0` from `routeur.py`. -/
def PENALTY_GYBE : ℚ := 120

/-- `_maneuver_penalty` from `routeur.py`.  `prev_heading`/`prev_tack` are
`None` on the start node; Python's `None == 0` and `None == new_tack`
comparisons are `False`, which the `Option Int` model reproduces.
`PENALTY_HEADING_CHANGE` is `0.0` in the source. -/
def maneuver_penalty (prev_heading : Option α) (new_heading wind_dir_from : α)
    (prev_tack : Option Int) (new_tack : Int) : α × Option Maneuver :=
  match prev_heading with
  | none => (0, none)
  | some ph =>
    if prev_tack = some 0 ∨ new_tack = 0 then (0, none)
    else if prev_tack = some new_tack then (0, none)
    else
      let prev_twa := |pymod (wind_dir_from - ph + 540) 360 - 180|
      let new_twa := |pymod (wind_dir_from - new_heading + 540) 360 - 180|
      let twa := (1 / 2 : α) * (prev_twa + new_twa)
      if twa < 90 then ((180 : α), some Maneuver.tack)
      else ((120 : α), some Maneuver.gybe)

theorem pymod_shift540 (x : α) :
    pymod (x + 540) 360 = pymod (x + 180) 360 := by
  have h : x + 540 = x + 180 + (1 : ℤ) * 360 := by push_cast; ring
  rw [h, pymod_add_int_mul _ _ (by norm_num)]

/-- The `+540`-style signed angle of `routeur.py` equals `wrap_180` of
`conventions.py`. -/
theorem wrap540_eq_wrap180 (x : α) :
    pymod (x + 540) 360 - 180 = wrap_180 x := by
  rw [wrap_180, pymod_shift540]

/-- C3 (amended): the successor's tack is `0` exactly when
`|wrap180(wind - heading)| < 1e-6` (a tolerance band around the wind axis),
and otherwise it is the sign of `wrap180(wind - heading)`. -/
theorem sign_of_tack_spec (heading_deg wind_dir_from_deg : α) :
    sign_of_tack heading_deg wind_dir_from_deg =
      if |wrap_180 (wind_dir_from_deg - heading_deg)| < 1 / 1000000 then 0
      else if wrap_180 (wind_dir_from_deg - heading_deg) > 0 then 1 else -1 := by
  unfold sign_of_tack
  rw [wrap540_eq_wrap180]

/-- C3 counterexample: with heading `0` and wind-from `1e-7`, the heading is
not exactly on the wind axis (`wrap180(w - h) = 1e-7 ≠ 0`), yet
`_sign_of_tack` returns `0`, not `sign(wrap180(w - h)) = 1`. -/
theorem sign_of_tack_tolerance_zero :
    sign_of_tack (0 : ℚ) (1 / 10000000) = 0 ∧
    wrap_180 ((1 : ℚ) / 10000000 - 0) ≠ 0 := by
  constructor
  · with_unfolding_all decide
  · with_unfolding_all decide

/-- C4: maneuver detection yields no maneuver and no penalty when the previous
heading is unknown, when either tack is `0`, or when the tacks agree; otherwise
the average TWA `(prev_TWA + new_TWA)/2` selects `tack` with penalty 180 s
below 90° and `gybe` with penalty 120 s at or above. -/
theorem maneuver_penalty_spec (prev_heading : Option α)
    (new_heading wind_dir_from : α) (prev_tack : Option Int) (new_tack : Int) :
    maneuver_penalty prev_heading new_heading wind_dir_from prev_tack new_tack =
      if prev_heading = none ∨ prev_tack = some 0 ∨ new_tack = 0 ∨
          prev_tack = some new_tack then (0, none)
      else
        let prev_twa := compute_twa (prev_heading.getD 0) wind_dir_from
        let new_twa := compute_twa new_heading wind_dir_from
        if (prev_twa + new_twa) / 2 < 90 then ((180 : α), some Maneuver.tack)
        else ((120 : α), some Maneuver.gybe) := by
  match prev_heading with
  | none => simp [maneuver_penalty]
  | some ph =>
    simp only [maneuver_penalty, Option.getD_some, compute_twa, ← wrap540_eq_wrap180]
    have hhalf :
        (1 / 2 : α) * (|pymod (wind_dir_from - ph + 540) 360 - 180| +
          |pymod (wind_dir_from - new_heading + 540) 360 - 180|) =
        (|pymod (wind_dir_from - ph + 540) 360 - 180| +
          |pymod (wind_dir_from - new_heading + 540) 360 - 180|) / 2 := by
      ring
    rw [hhalf]
    have hs : ¬ ((some ph : Option α) = none) := by simp
    split_ifs <;> first
      | rfl
      | tauto

/- ============================================================
   C10: the interpolated polar speed never exceeds the matrix maximum
   ============================================================ -/

theorem le_foldl_max (l : List α) (a : α) : a ≤ l.foldl max a := by
  induction l generalizing a with
  | nil => exact le_refl a
  | cons b t ih => exact le_trans (le_max_left a b) (ih (max a b))

theorem mem_le_foldl_max (l : List α) (a x : α) (hx : x ∈ l) : x ≤ l.foldl max a := by
  induction l generalizing a with
  | nil => cases hx
  | cons b t ih =>
    rcases List.mem_cons.mp hx with rfl | hxt
    · exact le_trans (le_max_right a x) (le_foldl_max t _)
    · exact ih _ hxt

theorem le_listMax (l : List α) (x : α) (hx : x ∈ l) : x ≤ listMax l := by
  cases l with
  | nil => cases hx
  | cons b t =>
    rcases List.mem_cons.mp hx with rfl | hxt
    · exact le_foldl_max t x
    · exact mem_le_foldl_max t b x hxt

theorem foldl_max_mem (l : List α) (a : α) : l.foldl max a ∈ a :: l := by
  induction l generalizing a with
  | nil => exact List.mem_singleton.mpr rfl
  | cons b t ih =>
    have h := ih (max a b)
    rcases List.mem_cons.mp h with heq | hmem
    · rcases max_choice a b with hab | hab
      · rw [List.foldl_cons, heq, hab]; exact List.mem_cons_self _ _
      · rw [List.foldl_cons, heq, hab]
        exact List.mem_cons_of_mem _ (List.mem_cons_self _ _)
    · exact List.mem_cons_of_mem _ (List.mem_cons_of_mem _ hmem)

theorem listMax_mem (l : List α) (hne : l ≠ []) : listMax l ∈ l := by
  cases l with
  | nil => exact absurd rfl hne
  | cons b t => exact foldl_max_mem t b

theorem foldl_min_le (l : List α) (a : α) : l.foldl min a ≤ a := by
  induction l generalizing a with
  | nil => exact le_refl a
  | cons b t ih => exact le_trans (ih (min a b)) (min_le_left a b)

theorem foldl_min_le_mem (l : List α) (a x : α) (hx : x ∈ l) : l.foldl min a ≤ x := by
  induction l generalizing a with
  | nil => cases hx
  | cons b t ih =>
    rcases List.mem_cons.mp hx with rfl | hxt
    · exact le_trans (foldl_min_le t _) (min_le_right a x)
    · exact ih _ hxt

theorem listMin_le (l : List α) (x : α) (hx : x ∈ l) : listMin l ≤ x := by
  cases l with
  | nil => cases hx
  | cons b t =>
    rcases List.mem_cons.mp hx with rfl | hxt
    · exact foldl_min_le t x
    · exact foldl_min_le_mem t b x hxt

theorem foldl_min_mem (l : List α) (a : α) : l.foldl min a ∈ a :: l := by
  induction l generalizing a with
  | nil => exact List.mem_singleton.mpr rfl
  | cons b t ih =>
    have h := ih (min a b)
    rcases List.mem_cons.mp h with heq | hmem
    · rcases min_choice a b with hab | hab
      · rw [List.foldl_cons, heq, hab]; exact List.mem_cons_self _ _
      · rw [List.foldl_cons, heq, hab]
        exact List.mem_cons_of_mem _ (List.mem_cons_self _ _)
    · exact List.mem_cons_of_mem _ (List.mem_cons_of_mem _ hmem)

theorem listMin_mem (l : List α) (hne : l ≠ []) : listMin l ∈ l := by
  cases l with
  | nil => exact absurd rfl hne
  | cons b t => exact foldl_min_mem t b

theorem listMin_le_listMax (l : List α) (hne : l ≠ []) : listMin l ≤ listMax l :=
  le_listMax l _ (listMin_mem l hne)

theorem getA_cons_succ (x : α) (t : List α) (m : ℕ) : getA (x :: t) (m + 1) = getA t m := rfl

theorem getA_cons_zero (x : α) (t : List α) : getA (x :: t) 0 = x := rfl

theorem countP_lt_zero_of_sorted (x v : α) (t : List α)
    (ht : ∀ y ∈ t, x ≤ y) (hxv : v ≤ x) :
    t.countP (fun y => decide (y < v)) = 0 := by
  rw [List.countP_eq_zero]
  intro y hy
  simp only [decide_eq_true_eq, not_lt]
  exact le_trans hxv (ht y hy)

theorem searchsorted_upper (l : List α) (v : α) (hsort : l.Sorted (· ≤ ·))
    (hlt : searchsorted l v < l.length) : v ≤ getA l (searchsorted l v) := by
  induction l with
  | nil => simp [searchsorted] at hlt
  | cons x t ih =>
    obtain ⟨hx, ht⟩ := List.sorted_cons.mp hsort
    by_cases hpx : x < v
    · have hcount : searchsorted (x :: t) v = searchsorted t v + 1 := by
        simp [searchsorted, List.countP_cons, hpx]
      rw [hcount, getA_cons_succ]
      rw [hcount] at hlt
      simp only [List.length_cons] at hlt
      exact ih ht (by omega)
    · have hxv : v ≤ x := not_lt.mp hpx
      have hcount : searchsorted (x :: t) v = 0 := by
        simp only [searchsorted, List.countP_cons]
        rw [countP_lt_zero_of_sorted x v t hx hxv]
        simp [hpx]
      rw [hcount, getA_cons_zero]
      exact hxv

theorem searchsorted_lower (l : List α) (v : α) (hsort : l.Sorted (· ≤ ·))
    (h1 : 1 ≤ searchsorted l v) : getA l (searchsorted l v - 1) < v := by
  induction l with
  | nil => simp [searchsorted] at h1
  | cons x t ih =>
    obtain ⟨hx, ht⟩ := List.sorted_cons.mp hsort
    by_cases hpx : x < v
    · have hcount : searchsorted (x :: t) v = searchsorted t v + 1 := by
        simp [searchsorted, List.countP_cons, hpx]
      rw [hcount]
      by_cases h0 : searchsorted t v = 0
      · rw [h0]
        exact hpx
      · have hge : 1 ≤ searchsorted t v := by omega
        have hshift : searchsorted t v + 1 - 1 = (searchsorted t v - 1) + 1 := by omega
        rw [hshift, getA_cons_succ]
        exact ih ht hge
    · have hxv : v ≤ x := not_lt.mp hpx
      have hcount : searchsorted (x :: t) v = 0 := by
        simp only [searchsorted, List.countP_cons]
        rw [countP_lt_zero_of_sorted x v t hx hxv]
        simp [hpx]
      rw [hcount] at h1
      omega

theorem searchsorted_le_length (l : List α) (v : α) : searchsorted l v ≤ l.length :=
  List.countP_le_length _

theorem searchsorted_lt_length (l : List α) (v : α) (hne : l ≠ [])
    (hhi : v ≤ listMax l) : searchsorted l v < l.length := by
  rcases lt_or_eq_of_le (searchsorted_le_length l v) with h | h
  · exact h
  · exfalso
    have hall : ∀ y ∈ l, y < v := by
      intro y hy
      have := List.countP_eq_length.mp h y hy
      simpa using this
    exact absurd (lt_of_le_of_lt hhi (hall _ (listMax_mem l hne))) (lt_irrefl v)

/-- Bounds for one interpolation axis of `get_boat_speed`: for a sorted
non-empty axis and a value inside its range, both bracketing indices are in
range and the fractional weight lies in `[0, 1]`. -/
theorem axis_weight (arr : List α) (w : α) (hne : arr ≠ [])
    (hsort : arr.Sorted (· ≤ ·))
    (hlo : listMin arr ≤ w) (hhi : w ≤ listMax arr) :
    searchsorted arr w - 1 < arr.length ∧
    min (searchsorted arr w) (arr.length - 1) < arr.length ∧
    (0 : α) ≤ (if getA arr (min (searchsorted arr w) (arr.length - 1)) =
                  getA arr (searchsorted arr w - 1) then 0
               else (w - getA arr (searchsorted arr w - 1)) /
                    (getA arr (min (searchsorted arr w) (arr.length - 1)) -
                     getA arr (searchsorted arr w - 1))) ∧
    (if getA arr (min (searchsorted arr w) (arr.length - 1)) =
        getA arr (searchsorted arr w - 1) then 0
     else (w - getA arr (searchsorted arr w - 1)) /
          (getA arr (min (searchsorted arr w) (arr.length - 1)) -
           getA arr (searchsorted arr w - 1))) ≤ 1 := by
  have hlen : 0 < arr.length := List.length_pos.mpr hne
  have hjlt : searchsorted arr w < arr.length := searchsorted_lt_length arr w hne hhi
  have hbound : (0 : α) ≤ (if getA arr (min (searchsorted arr w) (arr.length - 1)) =
                  getA arr (searchsorted arr w - 1) then 0
               else (w - getA arr (searchsorted arr w - 1)) /
                    (getA arr (min (searchsorted arr w) (arr.length - 1)) -
                     getA arr (searchsorted arr w - 1))) ∧
      (if getA arr (min (searchsorted arr w) (arr.length - 1)) =
          getA arr (searchsorted arr w - 1) then (0 : α)
       else (w - getA arr (searchsorted arr w - 1)) /
            (getA arr (min (searchsorted arr w) (arr.length - 1)) -
             getA arr (searchsorted arr w - 1))) ≤ 1 := by
    by_cases hj0 : searchsorted arr w = 0
    · rw [hj0]
      norm_num
    · have hj1 : 1 ≤ searchsorted arr w := by omega
      have hmin : min (searchsorted arr w) (arr.length - 1) = searchsorted arr w := by omega
      rw [hmin]
      have hlow : getA arr (searchsorted arr w - 1) < w :=
        searchsorted_lower arr w hsort hj1
      have hup : w ≤ getA arr (searchsorted arr w) :=
        searchsorted_upper arr w hsort hjlt
      by_cases heq : getA arr (searchsorted arr w) = getA arr (searchsorted arr w - 1)
      · rw [if_pos heq]
        norm_num
      · rw [if_neg heq]
        have hden : 0 < getA arr (searchsorted arr w) - getA arr (searchsorted arr w - 1) := by
          have hlt : getA arr (searchsorted arr w - 1) < getA arr (searchsorted arr w) :=
            lt_of_lt_of_le hlow hup
          linarith
        constructor
        · exact le_of_lt (div_pos (by linarith) hden)
        · exact (div_le_one hden).mpr (by linarith)
  exact ⟨by omega, by omega, hbound.1, hbound.2⟩

theorem mem_flat2 (m : List (List α)) (r : List α) (x : α)
    (hr : r ∈ m) (hx : x ∈ r) : x ∈ flat2 m := by
  induction m with
  | nil => cases hr
  | cons r0 t ih =>
    rcases List.mem_cons.mp hr with rfl | hrt
    · exact List.mem_append.mpr (Or.inl hx)
    · exact List.mem_append.mpr (Or.inr (ih hrt))

theorem mget_mem_flat2 (m : List (List α)) (i j : ℕ)
    (hi : i < m.length) (hj : j < (m.getD i []).length) :
    mget m i j ∈ flat2 m := by
  have hrow : m.getD i [] ∈ m := by
    rw [List.getD_eq_getElem m [] hi]
    exact List.getElem_mem hi
  have hval : getA (m.getD i []) j ∈ m.getD i [] := by
    rw [getA, List.getD_eq_getElem _ 0 hj]
    exact List.getElem_mem hj
  exact mem_flat2 m _ _ hrow hval

/-- One corner bound used four times in C10. -/
theorem mget_le_max (m : List (List α)) (i j : ℕ)
    (hi : i < m.length) (hj : j < (m.getD i []).length) :
    mget m i j ≤ get_max_speed m :=
  le_listMax _ _ (mget_mem_flat2 m i j hi hj)

theorem bilinear_le_max (vll vlh vhl vhh tx ty M : α)
    (htx0 : 0 ≤ tx) (htx1 : tx ≤ 1) (hty0 : 0 ≤ ty) (hty1 : ty ≤ 1)
    (h1 : vll ≤ M) (h2 : vlh ≤ M) (h3 : vhl ≤ M) (h4 : vhh ≤ M) :
    vll * (1 - tx) * (1 - ty) + vlh * tx * (1 - ty) +
      vhl * (1 - tx) * ty + vhh * tx * ty ≤ M := by
  have w1 : (0 : α) ≤ (1 - tx) * (1 - ty) := mul_nonneg (by linarith) (by linarith)
  have w2 : (0 : α) ≤ tx * (1 - ty) := mul_nonneg htx0 (by linarith)
  have w3 : (0 : α) ≤ (1 - tx) * ty := mul_nonneg (by linarith) hty0
  have w4 : (0 : α) ≤ tx * ty := mul_nonneg htx0 hty0
  have t1 : vll * (1 - tx) * (1 - ty) ≤ M * ((1 - tx) * (1 - ty)) := by
    rw [mul_assoc]; exact mul_le_mul_of_nonneg_right h1 w1
  have t2 : vlh * tx * (1 - ty) ≤ M * (tx * (1 - ty)) := by
    rw [mul_assoc]; exact mul_le_mul_of_nonneg_right h2 w2
  have t3 : vhl * (1 - tx) * ty ≤ M * ((1 - tx) * ty) := by
    rw [mul_assoc]; exact mul_le_mul_of_nonneg_right h3 w3
  have t4 : vhh * tx * ty ≤ M * (tx * ty) := by
    rw [mul_assoc]; exact mul_le_mul_of_nonneg_right h4 w4
  have hsum : M * ((1 - tx) * (1 - ty)) + M * (tx * (1 - ty)) +
      M * ((1 - tx) * ty) + M * (tx * ty) = M := by ring
  linarith

/-- C10: for every polar table with monotonically increasing axes (and the
data-model invariant `speed >= 0`), the interpolated boat speed never exceeds
the global maximum of the speed matrix — the `V_max` of the admissible
heuristic. -/
theorem get_boat_speed_le_get_max_speed (twa tws : α)
    (twa_array tws_array : List α) (speed_matrix : List (List α))
    (htwaNE : twa_array ≠ []) (htwsNE : tws_array ≠ [])
    (hsortTwa : twa_array.Sorted (· ≤ ·)) (hsortTws : tws_array.Sorted (· ≤ ·))
    (hrows : speed_matrix.length = twa_array.length)
    (hcols : ∀ r ∈ speed_matrix, r.length = tws_array.length)
    (hnonneg : ∀ r ∈ speed_matrix, ∀ x ∈ r, 0 ≤ x) :
    get_boat_speed twa tws twa_array tws_array speed_matrix ≤
      get_max_speed speed_matrix := by
  have hrowlen : ∀ i, i < speed_matrix.length →
      (speed_matrix.getD i []).length = tws_array.length := by
    intro i hi
    apply hcols
    rw [List.getD_eq_getElem _ [] hi]
    exact List.getElem_mem hi
  simp only [get_boat_speed]
  set twa2 := clamp (foldTWA twa) (listMin twa_array) (listMax twa_array) with htwa2
  set tws2 := clamp tws (listMin tws_array) (listMax tws_array) with htws2
  have hminmaxTwa := listMin_le_listMax twa_array htwaNE
  have hminmaxTws := listMin_le_listMax tws_array htwsNE
  have htwa2lo : listMin twa_array ≤ twa2 := le_max_left _ _
  have htwa2hi : twa2 ≤ listMax twa_array := by
    rw [htwa2, clamp]
    exact max_le hminmaxTwa (min_le_left _ _)
  have htws2lo : listMin tws_array ≤ tws2 := le_max_left _ _
  have htws2hi : tws2 ≤ listMax tws_array := by
    rw [htws2, clamp]
    exact max_le hminmaxTws (min_le_left _ _)
  obtain ⟨hil, hih, hty0, hty1⟩ :=
    axis_weight twa_array twa2 htwaNE hsortTwa htwa2lo htwa2hi
  obtain ⟨hjl, hjh, htx0, htx1⟩ :=
    axis_weight tws_array tws2 htwsNE hsortTws htws2lo htws2hi
  have hM0 : 0 ≤ get_max_speed speed_matrix := by
    have hmatNE : speed_matrix ≠ [] := by
      intro h
      rw [h] at hrows
      exact htwaNE (List.length_eq_zero.mp hrows.symm)
    have h00 : 0 < speed_matrix.length := List.length_pos.mpr hmatNE
    have hr0 : 0 < (speed_matrix.getD 0 []).length := by
      rw [hrowlen 0 h00]
      exact List.length_pos.mpr htwsNE
    refine le_trans ?_ (mget_le_max speed_matrix 0 0 h00 hr0)
    have hmem : mget speed_matrix 0 0 ∈ speed_matrix.getD 0 [] := by
      rw [mget, getA, List.getD_eq_getElem _ 0 hr0]
      exact List.getElem_mem hr0
    have hrowmem : speed_matrix.getD 0 [] ∈ speed_matrix := by
      rw [List.getD_eq_getElem _ [] h00]
      exact List.getElem_mem h00
    exact hnonneg _ hrowmem _ hmem
  apply max_le _ hM0
  apply bilinear_le_max _ _ _ _ _ _ _ htx0 htx1 hty0 hty1
  · exact mget_le_max speed_matrix _ _ (by omega) (by rw [hrowlen _ (by omega)]; omega)
  · exact mget_le_max speed_matrix _ _ (by omega) (by rw [hrowlen _ (by omega)]; omega)
  · exact mget_le_max speed_matrix _ _ (by omega) (by rw [hrowlen _ (by omega)]; omega)
  · exact mget_le_max speed_matrix _ _ (by omega) (by rw [hrowlen _ (by omega)]; omega)

/-- Witness for C10 at a concrete monotone 2×2 polar table. -/
theorem get_boat_speed_le_get_max_speed_witness :
    ([(0 : ℚ), 90] ≠ []) ∧ ([(0 : ℚ), 10] ≠ []) ∧
    ([(0 : ℚ), 90].Sorted (· ≤ ·)) ∧ ([(0 : ℚ), 10].Sorted (· ≤ ·)) ∧
    get_boat_speed (45 : ℚ) 5 [0, 90] [0, 10] [[1, 2], [3, 4]] ≤
      get_max_speed [[1, 2], [3, 4]] :=
  ⟨by simp, by simp,
   by with_unfolding_all decide, by with_unfolding_all decide,
   get_boat_speed_le_get_max_speed 45 5 [0, 90] [0, 10] [[1, 2], [3, 4]]
     (by simp) (by simp)
     (by with_unfolding_all decide) (by with_unfolding_all decide)
     (by simp) (by with_unfolding_all decide) (by with_unfolding_all decide)⟩

/- ============================================================
   meteo.py
   ============================================================ -/

/-- `GribWindField` from `meteo.py`: one timestamped `(u10, v10)` grid.
`valid_date` is modelled as seconds (datetimes compare and subtract exactly). -/
structure WField (α : Type) where
  valid_date : α
  lats : List (List α)
  lons : List (List α)
  u10 : List (List α)
  v10 : List (List α)
  deriving DecidableEq

/-- Placeholder field used only for NumPy-style out-of-bounds defaults. -/
def emptyWF : WField α := ⟨0, [], [], [], []⟩

/-- `_find_bilinear_cell` from `meteo.py`: locate `(i0, i1, j0, j1)` for
bilinear interpolation on a rectilinear grid, handling descending axes by
reversal and mapping indices back, and rejecting points outside the axis
ranges (strictly outside only: boundary points are accepted). -/
def find_bilinear_cell (lat_target lon_target : α) (lats lons : List (List α)) :
    Option (ℕ × ℕ × ℕ × ℕ) :=
  let lat_1d := lats.map (fun r => getA r 0)
  let lon_1d := lons.headD []
  let lat_flip := getA lat_1d 1 < getA lat_1d 0
  let lat_1d2 := if lat_flip then lat_1d.reverse else lat_1d
  let lon_flip := getA lon_1d 1 < getA lon_1d 0
  let lon_1d2 := if lon_flip then lon_1d.reverse else lon_1d
  if lat_target < listMin lat_1d2 ∨ lat_target > listMax lat_1d2 then none
  else if lon_target < listMin lon_1d2 ∨ lon_target > listMax lon_1d2 then none
  else
    let i1 := searchsorted lat_1d2 lat_target
    let j1 := searchsorted lon_1d2 lon_target
    let i0 := i1 - 1
    let j0 := j1 - 1
    let i1b := min i1 (lat_1d2.length - 1)
    let j1b := min j1 (lon_1d2.length - 1)
    let ip := if lat_flip then
        (min ((lats.length - 1) - i0) ((lats.length - 1) - i1b),
         max ((lats.length - 1) - i0) ((lats.length - 1) - i1b))
      else (i0, i1b)
    let jp := if lon_flip then
        (min (((lons.headD []).length - 1) - j0) (((lons.headD []).length - 1) - j1b),
         max (((lons.headD []).length - 1) - j0) (((lons.headD []).length - 1) - j1b))
      else (j0, j1b)
    some (ip.1, ip.2, jp.1, jp.2)

/-- `_bilinear` from `meteo.py`: bilinear interpolation of `field_2d` at the
target point, with degenerate cells reduced to fewer dimensions and the
fractional weights clamped to `[0, 1]`. -/
def bilinear (lat_target lon_target : α) (lats lons : List (List α))
    (field_2d : List (List α)) : Option α :=
  match find_bilinear_cell lat_target lon_target lats lons with
  | none => none
  | some (i0, i1, j0, j1) =>
    let lat0 := mget lats i0 0
    let lat1 := mget lats i1 0
    let lon0 := mget lons 0 j0
    let lon1 := mget lons 0 j1
    if |lat1 - lat0| < 1 / 1000000000000 ∧ |lon1 - lon0| < 1 / 1000000000000 then
      some (mget field_2d i0 j0)
    else
      let ty := if |lat1 - lat0| < 1 / 1000000000000 then 0
                else (lat_target - lat0) / (lat1 - lat0)
      let tx := if |lon1 - lon0| < 1 / 1000000000000 then 0
                else (lon_target - lon0) / (lon1 - lon0)
      let ty2 := clamp ty 0 1
      let tx2 := clamp tx 0 1
      some (mget field_2d i0 j0 * (1 - tx2) * (1 - ty2) +
            mget field_2d i0 j1 * tx2 * (1 - ty2) +
            mget field_2d i1 j0 * (1 - tx2) * ty2 +
            mget field_2d i1 j1 * tx2 * ty2)

/-- Spatial interpolation of both wind components of one grid; `None` when
either component sample is out of grid (the repeated
`if u is None or v is None` pattern of `wind_uv_at`). -/
def spatialUV (f : WField α) (lat lon : α) : Option (α × α) :=
  match bilinear lat lon f.lats f.lons f.u10, bilinear lat lon f.lats f.lons f.v10 with
  | some u, some v => some (u, v)
  | _, _ => none

/-- `wind_uv_at` from `meteo.py`: clamp to the first grid at or before the
first time, to the last grid at or after the last time, and otherwise
interpolate `u`/`v` linearly in time between the two bracketing grids. -/
def wind_uv_at (fields : List (WField α)) (lat lon timestamp : α) :
    Option (α × α) :=
  let times := fields.map (fun f => f.valid_date)
  if timestamp ≤ getA times 0 then
    spatialUV (fields.headD emptyWF) lat lon
  else if times.getLastD 0 ≤ timestamp then
    spatialUV (fields.getLastD emptyWF) lat lon
  else
    let k1 := searchsorted times timestamp
    let k0 := k1 - 1
    let f0 := fields.getD k0 emptyWF
    let f1 := fields.getD k1 emptyWF
    match spatialUV f0 lat lon, spatialUV f1 lat lon with
    | some (u0, v0), some (u1, v1) =>
      let dt := f1.valid_date - f0.valid_date
      let alpha := if dt ≤ 0 then 0 else (timestamp - f0.valid_date) / dt
      let alpha2 := clamp alpha 0 1
      some ((1 - alpha2) * u0 + alpha2 * u1, (1 - alpha2) * v0 + alpha2 * v1)
    | _, _ => none

theorem getA_map_zero (g : WField α → α) (l : List (WField α)) (hne : l ≠ []) :
    getA (l.map g) 0 = g (l.headD (emptyWF (α := α))) := by
  cases l with
  | nil => exact absurd rfl hne
  | cons x t => rfl

theorem getLastD_map (g : WField α → α) (l : List (WField α)) (d : WField α) :
    (l.map g).getLastD (g d) = g (l.getLastD d) := by
  induction l generalizing d with
  | nil => rfl
  | cons x t ih =>
    rw [List.map_cons, List.getLastD_cons, List.getLastD_cons]
    exact ih x

theorem getLastD_mem (l : List α) (d : α) (hl : l ≠ []) : l.getLastD d ∈ l := by
  rw [List.getLastD_eq_getLast?, List.getLast?_eq_getLast l hl, Option.getD_some]
  exact List.getLast_mem hl

theorem chain_head_lt_getLast (x : α) (l : List α) (hl : l ≠ [])
    (hchain : List.Chain' (· < ·) (x :: l)) : x < l.getLastD x := by
  have hpw := List.chain'_iff_pairwise.mp hchain
  rw [List.pairwise_cons] at hpw
  exact hpw.1 _ (getLastD_mem l x hl)


/-- C6: at or before the first grid time the returned wind is exactly the
first grid's spatially interpolated value, and at or after the last grid time
exactly the last grid's value — no temporal extrapolation. -/
theorem wind_uv_at_temporal_clamp (fields : List (WField α)) (lat lon t : α)
    (hne : fields ≠ [])
    (hchain : List.Chain' (· < ·) (fields.map (fun f => f.valid_date))) :
    (t ≤ (fields.headD emptyWF).valid_date →
      wind_uv_at fields lat lon t = spatialUV (fields.headD emptyWF) lat lon) ∧
    ((fields.getLastD emptyWF).valid_date ≤ t →
      wind_uv_at fields lat lon t = spatialUV (fields.getLastD emptyWF) lat lon) := by
  have hhead : getA (fields.map (fun f => f.valid_date)) 0 =
      (fields.headD emptyWF).valid_date := getA_map_zero _ _ hne
  have hlast : (fields.map (fun f => f.valid_date)).getLastD 0 =
      (fields.getLastD emptyWF).valid_date :=
    getLastD_map (fun f => f.valid_date) fields (emptyWF (α := α))
  constructor
  · intro ht
    simp only [wind_uv_at]
    rw [hhead, if_pos ht]
  · intro ht
    simp only [wind_uv_at]
    rw [hhead, hlast]
    by_cases hc1 : t ≤ (fields.headD emptyWF).valid_date
    · rw [if_pos hc1]
      rcases fields with _ | ⟨x, xs⟩
      · exact absurd rfl hne
      · rcases xs with _ | ⟨y, t2⟩
        · rfl
        · exfalso
          have hne2 : (List.map (fun f => f.valid_date) (y :: t2)) ≠ [] := by simp
          have hchain2 : List.Chain' (· < ·)
              (x.valid_date :: List.map (fun f => f.valid_date) (y :: t2)) := by
            simpa using hchain
          have hlt := chain_head_lt_getLast _ _ hne2 hchain2
          rw [getLastD_map (fun f => f.valid_date) (y :: t2) x] at hlt
          have hlast2 : (x :: y :: t2).getLastD (emptyWF (α := α)) =
              (y :: t2).getLastD x := List.getLastD_cons _ _ _
          rw [hlast2] at ht
          have hhead2 : ((x :: y :: t2).headD (emptyWF (α := α))) = x := rfl
          rw [hhead2] at hc1
          linarith
    · rw [if_neg hc1, if_pos ht]

/-- Concrete one-grid wind field used by the C6 witness: a 2×2 grid over
latitudes `[0,1]`, longitudes `[0,10]`, uniform wind `(3, 0)` m/s at time 0. -/
def c6fields : List (WField ℚ) :=
  [⟨0, [[0, 0], [1, 1]], [[0, 10], [0, 10]], [[3, 3], [3, 3]], [[0, 0], [0, 0]]⟩]

/-- Witness for C6 at a concrete field list and query. -/
theorem wind_uv_at_temporal_clamp_witness :
    wind_uv_at c6fields (1 / 2) 5 0 = spatialUV (c6fields.headD emptyWF) (1 / 2) 5 ∧
    wind_uv_at c6fields (1 / 2) 5 0 = spatialUV (c6fields.getLastD emptyWF) (1 / 2) 5 :=
  ⟨(wind_uv_at_temporal_clamp c6fields (1 / 2) 5 0 (by simp [c6fields])
      (by simp [c6fields])).1 (by with_unfolding_all decide),
   (wind_uv_at_temporal_clamp c6fields (1 / 2) 5 0 (by simp [c6fields])
      (by simp [c6fields])).2 (by with_unfolding_all decide)⟩

/- ============================================================
   routeur.py: state, physics parameters and helpers
   ============================================================ -/

/-- The transcendental primitives consumed by the router: the geodesy of
`outils.py` (`haversine`, `bearing`, `destination_point`), the cosine of an
angle in degrees (`np.cos(np.radians(.))` in `polaire.py`), and the
`(u, v) -> (speed_kn, dir_from)` conversion of `get_wind_from_grib`
(`np.hypot`, `ms_to_knots`, `uv_to_wind_dir_from`).  They have no computable
realisation on an abstract ordered field, so the router model takes them as
parameters; `realPhysParams` instantiates them with the exact real embedding. -/
structure PhysParams (α : Type) where
  haversine : α → α → α → α → α
  bearing : α → α → α → α → α
  destination_point : α → α → α → α → α × α
  cosdeg : α → α
  speedDirOfUV : α → α → α × α

/-- A search node: the candidate dictionary of `expand_waypoint` /
`calculate_route_astar_fixed` with its optional pre-departure fields. -/
structure Wp (α : Type) where
  lat : α
  lon : α
  timestamp : α
  heading : Option α
  boat_speed : α
  wind_speed : Option α
  wind_direction : Option α
  twa : Option α
  tack : Option Int
  maneuver : Option Maneuver
  g_cost : α
  h_cost : α
  f_cost : α
  parent : Option (α × α × α)
  deriving DecidableEq

/-- Result of `calculate_route_astar_fixed`.  The source prints a distinct
message and returns `None` for each failure; the constructors record which
exit was taken.  A `ValueError`/`NameError` escaping the search is the
`Except.error` layer around this type. -/
inductive RouteOutcome (α : Type) where
  | startOnLand
  | goalOnLand
  | found (path : List (Wp α))
  | noRoute
  deriving DecidableEq

/-- The message of the `ValueError` raised by `get_wind_from_grib`. -/
def windErrMsg : String := "Point hors grille GRIB (spatial) ou données invalides."

/-- `get_wind_from_grib` from `meteo.py`: sample the wind field and convert
`(u, v)` to `(speed_kn, dir_from)`; raises (`Except.error`) when the point is
outside the grid. -/
def get_wind_from_grib (P : PhysParams α) (lat lon timestamp : α)
    (grib_fields : List (WField α)) : Except String (α × α) :=
  match wind_uv_at grib_fields lat lon timestamp with
  | none => .error windErrMsg
  | some (u, v) => .ok (P.speedDirOfUV u v)

/-- The landmask object of `landmask.py` as seen by the router: its point
sampler.  (`is_sea` already folds in the out-of-raster and error cases of the
source, which return `False`.) -/
structure LandMaskM (α : Type) where
  is_sea : α → α → Bool

/-- `LandMask.is_path_clear` from `landmask.py`: sample `n_samples + 1`
points linear in lat/lon along the segment and require `is_sea` on all. -/
def is_path_clear (lm : LandMaskM α) (lat1 lon1 lat2 lon2 : α)
    (n_samples : ℕ) : Bool :=
  (List.range (n_samples + 1)).all (fun i =>
    let a : α := (i : α) / (n_samples : α)
    lm.is_sea (lat1 + (lat2 - lat1) * a) (lon1 + (lon2 - lon1) * a))

/-- Stable insertion sort, ascending; the model of Python's `sorted` on
deduplicated heading lists. -/
def insertSorted (x : α) : List α → List α
  | [] => [x]
  | y :: ys => if x ≤ y then x :: y :: ys else y :: insertSorted x ys

/-- Ascending sort of a list of angles (`sorted(...)` in the source). -/
def sortList : List α → List α
  | [] => []
  | x :: xs => insertSorted x (sortList xs)

/-- Stable insertion of a keyed candidate: strictly smaller keys go first and
an equal key keeps the original (earlier) element first, matching Python's
stable `list.sort(key=...)`. -/
def insertKeyed (x : (α × α) × Wp α) :
    List ((α × α) × Wp α) → List ((α × α) × Wp α)
  | [] => [x]
  | y :: ys =>
    if x.1.1 < y.1.1 then x :: y :: ys
    else if y.1.1 < x.1.1 then y :: insertKeyed x ys
    else if x.1.2 ≤ y.1.2 then x :: y :: ys
    else y :: insertKeyed x ys

/-- Stable sort by `(distance_to_goal, -boat_speed)` used by beam pruning. -/
def sortKeyed : List ((α × α) × Wp α) → List ((α × α) × Wp α)
  | [] => []
  | x :: xs => insertKeyed x (sortKeyed xs)

theorem mem_insertKeyed (x y : (α × α) × Wp α) (l : List ((α × α) × Wp α))
    (hy : y ∈ insertKeyed x l) : y = x ∨ y ∈ l := by
  induction l with
  | nil => simpa [insertKeyed] using hy
  | cons z t ih =>
    rw [insertKeyed] at hy
    have hfront : y ∈ x :: z :: t → y = x ∨ y ∈ z :: t := by
      intro hmem
      rcases List.mem_cons.mp hmem with rfl | h2
      · exact Or.inl rfl
      · exact Or.inr h2
    have hrec : y ∈ z :: insertKeyed x t → y = x ∨ y ∈ z :: t := by
      intro hmem
      rcases List.mem_cons.mp hmem with rfl | h2
      · exact Or.inr (List.mem_cons_self _ _)
      · rcases ih h2 with h3 | h3
        · exact Or.inl h3
        · exact Or.inr (List.mem_cons_of_mem _ h3)
    split at hy
    · exact hfront hy
    · split at hy
      · exact hrec hy
      · split at hy
        · exact hfront hy
        · exact hrec hy

theorem mem_sortKeyed (y : (α × α) × Wp α) (l : List ((α × α) × Wp α))
    (hy : y ∈ sortKeyed l) : y ∈ l := by
  induction l with
  | nil => simpa [sortKeyed] using hy
  | cons z t ih =>
    rw [sortKeyed] at hy
    rcases mem_insertKeyed z y (sortKeyed t) hy with rfl | h2
    · exact List.mem_cons_self _ _
    · exact List.mem_cons_of_mem _ (ih h2)

/-- Association-list lookup (model of Python `dict.get`). -/
def lookupA {κ ν : Type} [DecidableEq κ] : List (κ × ν) → κ → Option ν
  | [], _ => none
  | (k2, x) :: t, k => if k2 = k then some x else lookupA t k

/-- Association-list overwrite (model of Python `dict.__setitem__`). -/
def updateA {κ ν : Type} [DecidableEq κ] : List (κ × ν) → κ → ν → List (κ × ν)
  | [], k, x => [(k, x)]
  | (k2, y) :: t, k, x =>
    if k2 = k then (k, x) :: t else (k2, y) :: updateA t k x

/- ============================================================
   routeur.py: expansion and search loop
   ============================================================ -/

/-- `compute_heuristic_admissible` from `routeur.py`: remaining distance over
`V_max` (knots converted with the local literal `0.514444`), with the
`<= 1e-9 -> 1e9` guard. -/
def compute_heuristic_admissible (P : PhysParams α)
    (lat lon goal_lat goal_lon max_speed_kn : α) : α :=
  let dist := P.haversine lat lon goal_lat goal_lon
  let vmax_ms := max_speed_kn * (514444 / 1000000)
  if vmax_ms ≤ 1 / 1000000000 then 1000000000 else dist / vmax_ms

/-- `_generate_candidate_headings` from `routeur.py`: goal-directed spread
(`np.linspace(-25, 25, 6)`), the two upwind and two downwind VMG headings,
a `±10°` jitter of everything, then set-deduplication and ascending sort.
The Python set is modelled as `dedup` + sort, which yields the same sorted
list of distinct headings. -/
def generate_candidate_headings (P : PhysParams α)
    (lat lon goal_lat goal_lon wind_speed_kn wind_dir_from : α)
    (twa_arr tws_arr : List α) (speed_mat : List (List α)) : List α :=
  let bearing_goal := P.bearing lat lon goal_lat goal_lon
  let twa_up := (find_optimal_twa_upwind P.cosdeg wind_speed_kn
    twa_arr tws_arr speed_mat).1.getD 0
  let twa_dn := (find_optimal_twa_downwind P.cosdeg wind_speed_kn
    twa_arr tws_arr speed_mat).1.getD 0
  let base :=
    ([-25, -15, -5, 5, 15, 25] : List α).map (fun d => pymod (bearing_goal + d) 360) ++
    [pymod (wind_dir_from + (-1) * twa_up) 360, pymod (wind_dir_from + 1 * twa_up) 360] ++
    [pymod (wind_dir_from + (-1) * twa_dn) 360, pymod (wind_dir_from + 1 * twa_dn) 360]
  let jit := base.flatMap (fun b => [pymod (b + (-10)) 360, pymod (b + 10) 360])
  sortList ((base ++ jit).dedup)

/-- The body of the `for heading in headings` loop of `expand_waypoint`:
TWA, polar speed with the minimum-speed skip, step distance with the local
literal `0.514444`, destination, landmask clearance skip, tack sign,
maneuver penalty, light-air penalty and the composite-cost candidate. -/
def candidate_of_heading (P : PhysParams α) (lat lon timestamp g_cost : α)
    (twa_arr tws_arr : List α) (speed_mat : List (List α)) (time_step : α)
    (landmask : Option (LandMaskM α)) (prev_heading : Option α)
    (prev_tack : Option Int) (wind_speed wind_dir heading : α) :
    Option (Wp α) :=
  let twa := |pymod (wind_dir - heading + 180) 360 - 180|
  let boat_speed := get_boat_speed twa wind_speed twa_arr tws_arr speed_mat
  if boat_speed < 1 / 2 then none
  else
    let distance_m := boat_speed * (514444 / 1000000) * time_step
    let dest := P.destination_point lat lon heading distance_m
    let blocked := match landmask with
      | some lm => !(is_path_clear lm lat lon dest.1 dest.2 6)
      | none => false
    if blocked then none
    else
      let new_tack := sign_of_tack heading wind_dir
      let mp := maneuver_penalty prev_heading heading wind_dir prev_tack new_tack
      let low_wind_pen : α := if wind_speed < 6 then 300 else 0
      let composite_step := time_step + mp.1 + low_wind_pen
      some { lat := dest.1, lon := dest.2,
             timestamp := timestamp + time_step,
             heading := some heading, boat_speed := boat_speed,
             wind_speed := some wind_speed, wind_direction := some wind_dir,
             twa := some twa, tack := some new_tack, maneuver := mp.2,
             g_cost := g_cost + composite_step, h_cost := 0, f_cost := 0,
             parent := some (lat, lon, timestamp) }

/-- The beam pruning tail of `expand_waypoint`: rank by distance to goal
(ties by higher boat speed, stable), keep the best `beam_width`. -/
def beam_prune (P : PhysParams α) (goal_lat goal_lon : α) (beam_width : ℕ)
    (candidates : List (Wp α)) : List (Wp α) :=
  let ranked := candidates.map (fun c =>
    ((P.haversine c.lat c.lon goal_lat goal_lon, -c.boat_speed), c))
  ((sortKeyed ranked).map (fun rc => rc.2)).take beam_width

/-- `expand_waypoint` from `routeur.py`.  The wind sample is the one the
module documents and imports (`get_wind_from_grib` on `grib_fields`); the
line as written calls the undefined global `meteo_client` and raises
`NameError` — see claim C1.  The sample's exception propagates (there is no
`try` in the source), so an out-of-grid node makes the whole call fail. -/
def expand_waypoint (P : PhysParams α) (lat lon timestamp g_cost : α)
    (twa_arr tws_arr : List α) (speed_mat : List (List α))
    (grib_fields : List (WField α)) (goal_lat goal_lon : α) (time_step : α)
    (landmask : Option (LandMaskM α)) (prev_heading : Option α)
    (prev_tack : Option Int) (beam_width : ℕ) :
    Except String (List (Wp α)) :=
  match get_wind_from_grib P lat lon timestamp grib_fields with
  | .error e => .error e
  | .ok (wind_speed, wind_dir) =>
    let headings := generate_candidate_headings P lat lon goal_lat goal_lon
      wind_speed wind_dir twa_arr tws_arr speed_mat
    let candidates := headings.filterMap
      (candidate_of_heading P lat lon timestamp g_cost twa_arr tws_arr
        speed_mat time_step landmask prev_heading prev_tack wind_speed
        wind_dir)
    if candidates.isEmpty then .ok []
    else .ok (beam_prune P goal_lat goal_lon beam_width candidates)

/-- `_state_key` from `routeur.py`: the discretized spatio-temporal key. -/
def state_key (lat lon timestamp departure dlat dlon dt_seconds : α) :
    Int × Int × Int :=
  (⌊lat / dlat⌋, ⌊lon / dlon⌋, ⌊(timestamp - departure) / dt_seconds⌋)

/-- Pop of the `heapq` priority queue: the minimum of `(f_cost, counter)`
(counters are distinct, so the tuple order is total and the popped entry is
unique). -/
def popMin (l : List (α × ℕ × Wp α)) :
    Option ((α × ℕ × Wp α) × List (α × ℕ × Wp α)) :=
  match l with
  | [] => none
  | x :: xs =>
    let m := xs.foldl (fun acc y =>
      if y.1 < acc.1 then y
      else if acc.1 < y.1 then acc
      else if y.2.1 < acc.2.1 then y else acc) x
    some (m, l.erase m)

/-- The path-reconstruction walk of `calculate_route_astar_fixed`: follow
`parent` keys through the waypoint table; stop at the start (no parent) or a
missing key.  The walk of the source terminates because timestamps strictly
decrease along parents; the fuel `allW.length + 1` is enough for every chain
of distinct stored keys. -/
def reconstruct_walk (allW : List ((α × α × α) × Wp α)) :
    ℕ → Wp α → List (Wp α)
  | 0, c => [c]
  | fuel + 1, c =>
    match c.parent with
    | none => [c]
    | some pk =>
      match lookupA allW pk with
      | none => [c]
      | some p => c :: reconstruct_walk allW fuel p

/-- `path.reverse()` after the reconstruction walk: departure-first order. -/
def reconstruct_path (allW : List ((α × α × α) × Wp α)) (current : Wp α) :
    List (Wp α) :=
  (reconstruct_walk allW (allW.length + 1) current).reverse

/-- The `while open_set and iteration < max_iterations` loop of
`calculate_route_astar_fixed`; `fuel` is the number of remaining iterations.
State: priority queue, push counter, best-g table keyed by the discretized
state, and the waypoint table keyed by exact `(lat, lon, timestamp)`. -/
def astar_loop (P : PhysParams α) (goal_lat goal_lon departure : α)
    (twa_arr tws_arr : List α) (speed_mat : List (List α))
    (grib_fields : List (WField α)) (time_step : α)
    (landmask : Option (LandMaskM α)) (arrival_threshold dlat dlon : α)
    (beam_width : ℕ) (max_speed : α) :
    ℕ → List (α × ℕ × Wp α) → ℕ → List ((Int × Int × Int) × α) →
    List ((α × α × α) × Wp α) → Except String (RouteOutcome α)
  | 0, _, _, _, _ => .ok .noRoute
  | fuel + 1, open_set, counter, visited, allW =>
    match popMin open_set with
    | none => .ok .noRoute
    | some (entry, rest) =>
      let current := entry.2.2
      let dist := P.haversine current.lat current.lon goal_lat goal_lon
      if dist < arrival_threshold then
        .ok (.found (reconstruct_path allW current))
      else
        let skey := state_key current.lat current.lon current.timestamp
          departure dlat dlon time_step
        let dominated := match lookupA visited skey with
          | some best_g => decide (best_g ≤ current.g_cost)
          | none => false
        if dominated then
          astar_loop P goal_lat goal_lon departure twa_arr tws_arr speed_mat
            grib_fields time_step landmask arrival_threshold dlat dlon
            beam_width max_speed fuel rest counter visited allW
        else
          let visited2 := updateA visited skey current.g_cost
          match expand_waypoint P current.lat current.lon current.timestamp
              current.g_cost twa_arr tws_arr speed_mat grib_fields goal_lat
              goal_lon time_step landmask current.heading current.tack
              beam_width with
          | .error e => .error e
          | .ok cands =>
            let st := cands.foldl
              (fun (acc : List (α × ℕ × Wp α) × ℕ × List ((α × α × α) × Wp α))
                   cand =>
                let h := compute_heuristic_admissible P cand.lat cand.lon
                  goal_lat goal_lon max_speed
                let cand2 := { cand with
                               h_cost := h, f_cost := cand.g_cost + h,
                               parent := some (current.lat, current.lon,
                                 current.timestamp) }
                (acc.1 ++ [(cand2.f_cost, acc.2.1, cand2)], acc.2.1 + 1,
                 updateA acc.2.2 (cand2.lat, cand2.lon, cand2.timestamp) cand2))
              (rest, counter, allW)
            astar_loop P goal_lat goal_lon departure twa_arr tws_arr speed_mat
              grib_fields time_step landmask arrival_threshold dlat dlon
              beam_width max_speed fuel st.1 st.2.1 visited2 st.2.2

/-- `calculate_route_astar_fixed` from `routeur.py`: the landmask pre-checks
on the two endpoints (only performed when a landmask object is supplied — no
wind-grid pre-check exists), then the A* loop seeded with the start node. -/
def calculate_route_astar_fixed (P : PhysParams α)
    (start_lat start_lon goal_lat goal_lon departure : α)
    (twa_arr tws_arr : List α) (speed_mat : List (List α))
    (grib_fields : List (WField α)) (time_step : α)
    (landmask : Option (LandMaskM α)) (max_iterations : ℕ)
    (arrival_threshold dlat dlon : α) (beam_width : ℕ) :
    Except String (RouteOutcome α) :=
  let max_speed := get_max_speed speed_mat
  let h0 := compute_heuristic_admissible P start_lat start_lon goal_lat
    goal_lon max_speed
  let start : Wp α := { lat := start_lat, lon := start_lon,
                        timestamp := departure, heading := none,
                        boat_speed := 0, wind_speed := none,
                        wind_direction := none, twa := none, tack := none,
                        maneuver := none, g_cost := 0, h_cost := h0,
                        f_cost := 0 + h0, parent := none }
  let proceed := astar_loop P goal_lat goal_lon departure twa_arr tws_arr
    speed_mat grib_fields time_step landmask arrival_threshold dlat dlon
    beam_width max_speed max_iterations [(start.f_cost, 0, start)] 1 []
    [((start_lat, start_lon, departure), start)]
  match landmask with
  | some lm =>
    if lm.is_sea start_lat start_lon = false then .ok .startOnLand
    else if lm.is_sea goal_lat goal_lon = false then .ok .goalOnLand
    else proceed
  | none => proceed

/- ============================================================
   C1, C2, C8: theorems about the expansion and the pre-checks
   ============================================================ -/

/-- A simple rational instantiation of the physics parameters, used to
evaluate the router model on concrete inputs (the distance is a constant
10^6 m, `destination_point` returns `(distance, heading)` so that both inputs
are observable in the successor, wind `(u, v)` passes through unchanged). -/
def mockPhys : PhysParams ℚ where
  haversine := fun _ _ _ _ => 1000000
  bearing := fun _ _ _ _ => 0
  destination_point := fun _ _ h d => (d, h)
  cosdeg := fun _ => 0
  speedDirOfUV := fun u v => (u, v)

/-- C1: when the wind sample at the expanded node is out of the grid,
`expand_waypoint` does not return an empty successor list — the
`ValueError` of `get_wind_from_grib` escapes (no `try` in the source), so the
whole call (and with it the search loop) fails instead of treating the node
as a dead end.  (The line as written in the source is even worse: it calls
the undefined global `meteo_client` and raises `NameError` on every
expansion; this model uses the wind source the module imports and
documents.) -/
theorem expand_waypoint_out_of_grid_errors (P : PhysParams α)
    (lat lon timestamp g_cost : α) (twa_arr tws_arr : List α)
    (speed_mat : List (List α)) (grib_fields : List (WField α))
    (goal_lat goal_lon time_step : α) (landmask : Option (LandMaskM α))
    (prev_heading : Option α) (prev_tack : Option Int) (beam_width : ℕ)
    (hout : wind_uv_at grib_fields lat lon timestamp = none) :
    expand_waypoint P lat lon timestamp g_cost twa_arr tws_arr speed_mat
      grib_fields goal_lat goal_lon time_step landmask prev_heading prev_tack
      beam_width = .error windErrMsg := by
  rw [expand_waypoint, get_wind_from_grib, hout]

/-- Witness for C1: a concrete point north of the grid of `c6fields`. -/
theorem expand_waypoint_out_of_grid_errors_witness :
    wind_uv_at c6fields (50 : ℚ) 5 0 = none ∧
    expand_waypoint mockPhys 50 5 0 0 [0] [0] [[1]] c6fields 0 0 3600 none
      none none 40 = .error windErrMsg :=
  ⟨by with_unfolding_all decide,
   expand_waypoint_out_of_grid_errors mockPhys 50 5 0 0 [0] [0] [[1]]
     c6fields 0 0 3600 none none none 40 (by with_unfolding_all decide)⟩

/-- C2 (amended, part that holds): when a landmask is supplied and the start
is on land, the search returns the start-on-land failure before any
expansion (the pre-check precedes the loop). -/
theorem start_on_land_fails_before_loop (P : PhysParams α)
    (start_lat start_lon goal_lat goal_lon departure : α)
    (twa_arr tws_arr : List α) (speed_mat : List (List α))
    (grib_fields : List (WField α)) (time_step : α) (lm : LandMaskM α)
    (max_iterations : ℕ) (arrival_threshold dlat dlon : α) (beam_width : ℕ)
    (hland : lm.is_sea start_lat start_lon = false) :
    calculate_route_astar_fixed P start_lat start_lon goal_lat goal_lon
      departure twa_arr tws_arr speed_mat grib_fields time_step (some lm)
      max_iterations arrival_threshold dlat dlon beam_width =
      .ok .startOnLand := by
  rw [calculate_route_astar_fixed]
  simp [hland]

/-- An all-land mask for the C2 witness. -/
def seaFalse : LandMaskM ℚ := ⟨fun _ _ => false⟩

/-- An all-sea mask for the C2 counterexample. -/
def seaTrue : LandMaskM ℚ := ⟨fun _ _ => true⟩

/-- Witness for the amended C2 at a concrete start on land. -/
theorem start_on_land_fails_before_loop_witness :
    seaFalse.is_sea (46.5 : ℚ) (-2.5) = false ∧
    calculate_route_astar_fixed mockPhys (46.5 : ℚ) (-2.5) 43.8 (-1.8) 0
      [0] [0] [[1]] c6fields 3600 (some seaFalse) 1 8000 (1 / 20) (1 / 20)
      40 = .ok .startOnLand :=
  ⟨rfl,
   start_on_land_fails_before_loop mockPhys 46.5 (-2.5) 43.8 (-1.8) 0
     [0] [0] [[1]] c6fields 3600 seaFalse 1 8000 (1 / 20) (1 / 20) 40 rfl⟩

/-- C2 counterexample: a start on sea but outside the wind-grid extent is
not rejected before the loop — the claimed wind-grid pre-check does not
exist.  The search proceeds, pops the start, expands it, and dies with the
out-of-grid wind error inside the first expansion, returning neither
`startOnLand`/`goalOnLand` nor any pre-loop failure. -/
theorem calculate_route_no_grid_pre_check :
    calculate_route_astar_fixed mockPhys (50 : ℚ) 5 (1 / 2) 5 0 [0] [0]
      [[1]] c6fields 3600 (some seaTrue) 1 8000 (1 / 20) (1 / 20) 40 =
      .error windErrMsg ∧
    (Except.error windErrMsg : Except String (RouteOutcome ℚ)) ≠
      .ok .startOnLand ∧
    (Except.error windErrMsg : Except String (RouteOutcome ℚ)) ≠
      .ok .goalOnLand := by
  refine ⟨?_, by simp, by simp⟩
  with_unfolding_all rfl

/-- C8 (amended): every successor's position is obtained from
`destination_point` with the step distance
`boat_speed * 0.514444 * time_step` — the hard-coded literal `0.514444` of
`routeur.py`, not the exact reciprocal `KNOT_TO_MPS` of `conventions.py`. -/
theorem expand_waypoint_distance (P : PhysParams α)
    (lat lon timestamp g_cost : α) (twa_arr tws_arr : List α)
    (speed_mat : List (List α)) (grib_fields : List (WField α))
    (goal_lat goal_lon time_step : α) (landmask : Option (LandMaskM α))
    (prev_heading : Option α) (prev_tack : Option Int) (beam_width : ℕ)
    (l : List (Wp α)) (c : Wp α)
    (hok : expand_waypoint P lat lon timestamp g_cost twa_arr tws_arr
      speed_mat grib_fields goal_lat goal_lon time_step landmask prev_heading
      prev_tack beam_width = .ok l)
    (hc : c ∈ l) :
    ∃ hd, c.heading = some hd ∧
      (c.lat, c.lon) = P.destination_point lat lon hd
        (c.boat_speed * (514444 / 1000000) * time_step) := by
  rw [expand_waypoint] at hok
  split at hok
  · cases hok
  · dsimp only at hok
    split at hok
    · injection hok with h
      subst h
      cases hc
    · injection hok with h
      subst h
      rw [beam_prune] at hc
      have hc2 := List.mem_of_mem_take hc
      obtain ⟨rc, hrc, hrc2⟩ := List.mem_map.mp hc2
      have hrc3 := mem_sortKeyed rc _ hrc
      obtain ⟨c0, hc0mem, hc0eq⟩ := List.mem_map.mp hrc3
      have hcc0 : c = c0 := by rw [← hrc2, ← hc0eq]
      subst hcc0
      obtain ⟨hd, hhdmem, hbody⟩ := List.mem_filterMap.mp hc0mem
      rw [candidate_of_heading] at hbody
      dsimp only at hbody
      repeat' split at hbody
      all_goals first
        | exact Option.noConfusion hbody
        | (rw [Option.some.injEq] at hbody
           subst hbody
           exact ⟨hd, rfl, rfl⟩)


/-- The concrete expansion of the C8 analysis, inside the grid of
`c6fields` (uniform polar speed 1 kn, wind `(3, 0)` m/s under the mock
conversion, mock geodesy exposing `(distance, heading)` as the
destination). -/
def c8run : Except String (List (Wp ℚ)) :=
  expand_waypoint mockPhys (1 / 2) 5 0 0 [0] [0] [[1]] c6fields (1 / 2) 5
    3600 none none none 40

/-- The successors of `c8run`, written out: every candidate advances
`1 * 0.514444 * 3600 = 1157499/625` metres (the mock destination stores the
distance in `lat` and the heading in `lon`). -/
def c8list : List (Wp ℚ) :=
  [   ⟨1157499 / 625, 5, 3600, some 5, 1, some 3, some 0, some 5, some (-1), none,
    3900, 0, 0, some (1 / 2, 5, 0)⟩,
   ⟨1157499 / 625, 15, 3600, some 15, 1, some 3, some 0, some 15, some (-1), none,
    3900, 0, 0, some (1 / 2, 5, 0)⟩,
   ⟨1157499 / 625, 25, 3600, some 25, 1, some 3, some 0, some 25, some (-1), none,
    3900, 0, 0, some (1 / 2, 5, 0)⟩,
   ⟨1157499 / 625, 35, 3600, some 35, 1, some 3, some 0, some 35, some (-1), none,
    3900, 0, 0, some (1 / 2, 5, 0)⟩,
   ⟨1157499 / 625, 90, 3600, some 90, 1, some 3, some 0, some 90, some (-1), none,
    3900, 0, 0, some (1 / 2, 5, 0)⟩,
   ⟨1157499 / 625, 100, 3600, some 100, 1, some 3, some 0, some 100, some (-1), none,
    3900, 0, 0, some (1 / 2, 5, 0)⟩,
   ⟨1157499 / 625, 110, 3600, some 110, 1, some 3, some 0, some 110, some (-1), none,
    3900, 0, 0, some (1 / 2, 5, 0)⟩,
   ⟨1157499 / 625, 250, 3600, some 250, 1, some 3, some 0, some 110, some 1, none,
    3900, 0, 0, some (1 / 2, 5, 0)⟩,
   ⟨1157499 / 625, 260, 3600, some 260, 1, some 3, some 0, some 100, some 1, none,
    3900, 0, 0, some (1 / 2, 5, 0)⟩,
   ⟨1157499 / 625, 270, 3600, some 270, 1, some 3, some 0, some 90, some 1, none,
    3900, 0, 0, some (1 / 2, 5, 0)⟩,
   ⟨1157499 / 625, 325, 3600, some 325, 1, some 3, some 0, some 35, some 1, none,
    3900, 0, 0, some (1 / 2, 5, 0)⟩,
   ⟨1157499 / 625, 335, 3600, some 335, 1, some 3, some 0, some 25, some 1, none,
    3900, 0, 0, some (1 / 2, 5, 0)⟩,
   ⟨1157499 / 625, 345, 3600, some 345, 1, some 3, some 0, some 15, some 1, none,
    3900, 0, 0, some (1 / 2, 5, 0)⟩,
   ⟨1157499 / 625, 355, 3600, some 355, 1, some 3, some 0, some 5, some 1, none,
    3900, 0, 0, some (1 / 2, 5, 0)⟩]

/-- A default waypoint for `headD`. -/
def wp0 : Wp ℚ :=
  ⟨0, 0, 0, none, 0, none, none, none, none, none, 0, 0, 0, none⟩

theorem c8wind_eq :
    get_wind_from_grib mockPhys (1 / 2) 5 0 c6fields = .ok (3, 0) := by
  with_unfolding_all rfl

theorem c8headings_eq :
    generate_candidate_headings mockPhys (1 / 2) 5 (1 / 2) 5 3 0 [0] [0]
      [[1]] = [5, 15, 25, 35, 90, 100, 110, 250, 260, 270, 325, 335, 345,
      355] := by
  with_unfolding_all rfl

theorem c8cands_eq :
    ([5, 15, 25, 35, 90, 100, 110, 250, 260, 270, 325, 335, 345, 355] :
        List ℚ).filterMap
      (candidate_of_heading mockPhys (1 / 2) 5 0 0 [0] [0] [[1]] 3600 none
        none none 3 0) = c8list := by
  with_unfolding_all rfl

theorem c8beam_eq :
    beam_prune mockPhys (1 / 2) 5 40 c8list = c8list := by
  with_unfolding_all rfl

/-- Stepwise evaluation of the concrete expansion. -/
theorem c8run_eq : c8run = .ok c8list := by
  rw [c8run, expand_waypoint, c8wind_eq]
  dsimp only
  rw [c8headings_eq, c8cands_eq, c8beam_eq]
  rfl

/-- C8 counterexample: the first successor of the concrete expansion advances
`boat_speed * 0.514444 * 3600 = 1851.9984` metres (at 1 kn), which differs
from the claimed `boat_speed * KN_TO_MPS * 3600` with
`KN_TO_MPS = 1/1.9438444924406048 = 0.51444444...` (that would be
`1852.0000...` m): the conversion literal of the code is not the exact
reciprocal of `MPS_TO_KNOT`. -/
theorem step_distance_not_exact_reciprocal :
    (c8list.headD wp0).lat = 1157499 / 625 ∧
    (c8list.headD wp0).boat_speed = 1 ∧
    c8run = .ok c8list ∧
    (1157499 / 625 : ℚ) ≠ 1 * KNOT_TO_MPS * 3600 := by
  refine ⟨rfl, rfl, c8run_eq, ?_⟩
  with_unfolding_all decide

/-- Witness for the amended C8 at the first successor of `c8run`. -/
theorem expand_waypoint_distance_witness :
    c8run = .ok c8list ∧ c8list.headD wp0 ∈ c8list ∧
    ∃ hd, (c8list.headD wp0).heading = some hd ∧
      ((c8list.headD wp0).lat, (c8list.headD wp0).lon) =
        mockPhys.destination_point (1 / 2) 5 hd
          ((c8list.headD wp0).boat_speed * (514444 / 1000000) * 3600) :=
  ⟨c8run_eq, List.mem_cons_self _ _,
   expand_waypoint_distance mockPhys (1 / 2) 5 0 0 [0] [0] [[1]] c6fields
     (1 / 2) 5 3600 none none none 40 c8list (c8list.headD wp0) c8run_eq
     (List.mem_cons_self _ _)⟩

/- ============================================================
   outils.py over the reals (exact embedding for claim C7)
   ============================================================ -/

noncomputable section

open Real

/-- `math.atan2(y, x)`: the argument of the complex number `x + y i`,
in `(-π, π]` with `atan2 0 0 = 0`, exactly as the C library function. -/
def atan2 (y x : ℝ) : ℝ := Complex.arg ⟨x, y⟩

/-- `deg2rad` from `conventions.py` (`math.radians`). -/
def deg2rad (deg : ℝ) : ℝ := deg * (π / 180)

/-- `rad2deg` from `conventions.py` (`math.degrees`). -/
def rad2deg (rad : ℝ) : ℝ := rad * (180 / π)

/-- `EARTH_RADIUS_M = 6371000.0` from `outils.py`. -/
def EARTH_RADIUS_M : ℝ := 6371000

/-- `haversine` from `outils.py`: great-circle distance in metres. -/
def haversine (lat1 lon1 lat2 lon2 : ℝ) : ℝ :=
  let phi1 := deg2rad lat1
  let phi2 := deg2rad lat2
  let delta_phi := deg2rad (lat2 - lat1)
  let delta_lambda := deg2rad (lon2 - lon1)
  let a := sin (delta_phi / 2) ^ 2 +
    cos phi1 * cos phi2 * sin (delta_lambda / 2) ^ 2
  let c := 2 * atan2 (sqrt a) (sqrt (1 - a))
  EARTH_RADIUS_M * c

/-- `bearing` from `outils.py`: initial great-circle course in `[0, 360)`. -/
def bearing (lat1 lon1 lat2 lon2 : ℝ) : ℝ :=
  let phi1 := deg2rad lat1
  let phi2 := deg2rad lat2
  let delta_lambda := deg2rad (lon2 - lon1)
  let y := sin delta_lambda * cos phi2
  let x := cos phi1 * sin phi2 - sin phi1 * cos phi2 * cos delta_lambda
  let theta := atan2 y x
  wrap_360 (rad2deg theta)

/-- `destination_point` from `outils.py`: forward geodesic on the sphere. -/
def destination_point (lat lon bearing_deg distance_m : ℝ) : ℝ × ℝ :=
  let d := distance_m / EARTH_RADIUS_M
  let brng := deg2rad bearing_deg
  let lat1 := deg2rad lat
  let lon1 := deg2rad lon
  let lat2 := arcsin (sin lat1 * cos d + cos lat1 * sin d * cos brng)
  let lon2 := lon1 + atan2 (sin brng * sin d * cos lat1)
    (cos d - sin lat1 * sin lat2)
  (rad2deg lat2, rad2deg lon2)

theorem abs_mk (x y : ℝ) : Complex.abs ⟨x, y⟩ = sqrt (x ^ 2 + y ^ 2) := by
  rw [Complex.abs_apply, Complex.normSq_mk]
  ring_nf

theorem sin_atan2 (y x : ℝ) : sin (atan2 y x) = y / sqrt (x ^ 2 + y ^ 2) := by
  rw [atan2, Complex.sin_arg, abs_mk]

theorem cos_atan2 (y x : ℝ) (h : x ^ 2 + y ^ 2 ≠ 0) :
    cos (atan2 y x) = x / sqrt (x ^ 2 + y ^ 2) := by
  have hz : (⟨x, y⟩ : ℂ) ≠ 0 := by
    intro hz0
    apply h
    have hre : x = 0 := congrArg Complex.re hz0
    have him : y = 0 := congrArg Complex.im hz0
    rw [hre, him]
    ring
  rw [atan2, Complex.cos_arg hz, abs_mk]

theorem atan2_sqrt_cos (a : ℝ) (h0 : 0 ≤ a) (h1 : a ≤ 1) :
    cos (atan2 (sqrt a) (sqrt (1 - a))) = sqrt (1 - a) := by
  have hsum : sqrt (1 - a) ^ 2 + sqrt a ^ 2 = 1 := by
    rw [sq_sqrt h0, sq_sqrt (by linarith : (0 : ℝ) ≤ 1 - a)]
    ring
  rw [cos_atan2 _ _ (by rw [hsum]; norm_num), hsum, sqrt_one, div_one]

theorem atan2_sqrt_sin (a : ℝ) (h0 : 0 ≤ a) (h1 : a ≤ 1) :
    sin (atan2 (sqrt a) (sqrt (1 - a))) = sqrt a := by
  have hsum : sqrt (1 - a) ^ 2 + sqrt a ^ 2 = 1 := by
    rw [sq_sqrt h0, sq_sqrt (by linarith : (0 : ℝ) ≤ 1 - a)]
    ring
  rw [sin_atan2, hsum, sqrt_one, div_one]

theorem atan2_scale (y x r : ℝ) (hr : 0 < r) :
    atan2 (r * y) (r * x) = atan2 y x := by
  have hmk : (⟨r * x, r * y⟩ : ℂ) = (r : ℂ) * ⟨x, y⟩ := by
    apply Complex.ext
    · simp [Complex.mul_re]
    · simp [Complex.mul_im]
  rw [atan2, hmk, Complex.arg_real_mul _ hr, atan2]

theorem atan2_zero_pos (x : ℝ) (hx : 0 ≤ x) : atan2 0 x = 0 := by
  have hmk : (⟨x, 0⟩ : ℂ) = (x : ℝ) := rfl
  rw [atan2, hmk, Complex.arg_ofReal_of_nonneg hx]

theorem atan2_zero_neg (x : ℝ) (hx : x < 0) : atan2 0 x = π := by
  have hmk : (⟨x, 0⟩ : ℂ) = (x : ℝ) := rfl
  rw [atan2, hmk, Complex.arg_ofReal_of_neg hx]

theorem atan2_one_zero : atan2 1 0 = π / 2 := by
  have hmk : (⟨0, 1⟩ : ℂ) = Complex.I := rfl
  rw [atan2, hmk, Complex.arg_I]

theorem atan2_cos_sin (t : ℝ) : ∃ k : ℤ, atan2 (sin t) (cos t) = t - 2 * π * k := by
  have hmk : (⟨cos t, sin t⟩ : ℂ) = Complex.exp ((t : ℂ) * Complex.I) := by
    rw [Complex.exp_mul_I, Complex.mk_eq_add_mul_I, ← Complex.ofReal_cos,
      ← Complex.ofReal_sin]
  refine ⟨toIocDiv Real.two_pi_pos (-π) t, ?_⟩
  rw [atan2, hmk, Complex.arg_exp_mul_I]
  rw [toIocMod, zsmul_eq_mul]
  ring

theorem deg2rad_rad2deg (x : ℝ) : deg2rad (rad2deg x) = x := by
  rw [deg2rad, rad2deg]
  field_simp

theorem rad2deg_deg2rad (x : ℝ) : rad2deg (deg2rad x) = x := by
  rw [deg2rad, rad2deg]
  field_simp

theorem deg2rad_sub (x y : ℝ) : deg2rad (x - y) = deg2rad x - deg2rad y := by
  rw [deg2rad, deg2rad, deg2rad]
  ring

theorem deg2rad_wrap_360 (z : ℝ) :
    deg2rad (wrap_360 z) = deg2rad z - (⌊z / 360⌋ : ℤ) * (2 * π) := by
  simp only [wrap_360, pymod, deg2rad]
  ring

theorem cos_deg2rad_wrap_360 (z : ℝ) :
    cos (deg2rad (wrap_360 z)) = cos (deg2rad z) := by
  rw [deg2rad_wrap_360, cos_sub_int_mul_two_pi]

theorem sin_deg2rad_wrap_360 (z : ℝ) :
    sin (deg2rad (wrap_360 z)) = sin (deg2rad z) := by
  rw [deg2rad_wrap_360, sin_sub, cos_int_mul_two_pi]
  have h : ((⌊z / 360⌋ : ℤ) : ℝ) * (2 * π) = ((2 * ⌊z / 360⌋ : ℤ) : ℝ) * π := by
    push_cast
    ring
  rw [h, sin_int_mul_pi]
  ring

theorem abs_deg2rad_lt_halfpi (lat : ℝ) (h : |lat| < 90) :
    |deg2rad lat| < π / 2 := by
  rw [deg2rad, abs_mul, abs_of_pos (by positivity : (0:ℝ) < π / 180)]
  calc |lat| * (π / 180) < 90 * (π / 180) :=
        mul_lt_mul_of_pos_right h (by positivity)
    _ = π / 2 := by ring

/-- The heart of claim C7, in radians: with `a` the haversine quantity, `c` the
central angle `2·atan2(√a, √(1-a))`, and `θ = atan2 y x` the initial bearing,
the three trigonometric inputs of the forward geodesic collapse exactly to the
target latitude and longitude offset. -/
theorem roundtrip_core (φ1 φ2 Δl a c x y θ : ℝ)
    (hc1 : 0 < cos φ1) (hc2 : 0 < cos φ2)
    (ha : a = sin ((φ2 - φ1) / 2) ^ 2 + cos φ1 * cos φ2 * sin (Δl / 2) ^ 2)
    (hcdef : c = 2 * atan2 (Real.sqrt a) (Real.sqrt (1 - a)))
    (hx : x = cos φ1 * sin φ2 - sin φ1 * cos φ2 * cos Δl)
    (hy : y = sin Δl * cos φ2)
    (hθ : θ = atan2 y x) :
    sin φ1 * cos c + cos φ1 * sin c * cos θ = sin φ2 ∧
    sin θ * sin c * cos φ1 = cos φ1 * cos φ2 * sin Δl ∧
    cos c - sin φ1 * sin φ2 = cos φ1 * cos φ2 * cos Δl := by
  have P1 := sin_sq_add_cos_sq φ1
  have ha0 : 0 ≤ a := by
    rw [ha]
    exact add_nonneg (sq_nonneg _)
      (mul_nonneg (mul_nonneg hc1.le hc2.le) (sq_nonneg _))
  have hK : 1 - 2 * a = sin φ1 * sin φ2 + cos φ1 * cos φ2 * cos Δl := by
    rw [ha]
    have e1 := sin_sq_eq_half_sub ((φ2 - φ1) / 2)
    have e2 := sin_sq_eq_half_sub (Δl / 2)
    rw [show 2 * ((φ2 - φ1) / 2) = φ2 - φ1 by ring] at e1
    rw [show 2 * (Δl / 2) = Δl by ring] at e2
    rw [e1, e2, cos_sub]
    ring
  have hKge : -1 ≤ sin φ1 * sin φ2 + cos φ1 * cos φ2 * cos Δl := by
    have hca := cos_add φ1 φ2
    have hle := cos_le_one (φ1 + φ2)
    have hmul : cos φ1 * cos φ2 * (-1) ≤ cos φ1 * cos φ2 * cos Δl :=
      mul_le_mul_of_nonneg_left (neg_one_le_cos Δl) (mul_nonneg hc1.le hc2.le)
    nlinarith [hca, hle, hmul]
  have ha1 : a ≤ 1 := by linarith [hK, hKge]
  have h1a : (0:ℝ) ≤ 1 - a := by linarith
  have hcoscK : cos c = sin φ1 * sin φ2 + cos φ1 * cos φ2 * cos Δl := by
    rw [hcdef, cos_two_mul, atan2_sqrt_cos a ha0 ha1, sq_sqrt h1a, ← hK]
    ring
  have hsinc : sin c = 2 * Real.sqrt a * Real.sqrt (1 - a) := by
    rw [hcdef, sin_two_mul, atan2_sqrt_sin a ha0 ha1, atan2_sqrt_cos a ha0 ha1]
  have hsnn : 0 ≤ sin c := by
    rw [hsinc]
    positivity
  have hxysq : x ^ 2 + y ^ 2 = 1 - (1 - 2 * a) ^ 2 := by
    rw [hx, hy, hK]
    linear_combination (sin φ2 ^ 2 + cos φ2 ^ 2 * cos Δl ^ 2) * P1 +
      cos φ2 ^ 2 * sin_sq_add_cos_sq Δl + sin_sq_add_cos_sq φ2
  have hssq : sin c ^ 2 = x ^ 2 + y ^ 2 := by
    rw [hsinc, hxysq, mul_pow, mul_pow, sq_sqrt ha0, sq_sqrt h1a]
    ring
  have hscx : sin c * cos θ = x := by
    by_cases hs : sin c = 0
    · have hxy0 : x ^ 2 + y ^ 2 = 0 := by
        rw [← hssq, hs]
        ring
      have hx0 : x = 0 := by nlinarith [sq_nonneg x, sq_nonneg y]
      rw [hs, hx0]
      ring
    · have hxyne : x ^ 2 + y ^ 2 ≠ 0 := by
        rw [← hssq]
        exact pow_ne_zero 2 hs
      have hsq : Real.sqrt (x ^ 2 + y ^ 2) = sin c := by
        rw [← hssq, sqrt_sq hsnn]
      rw [hθ, cos_atan2 y x hxyne, hsq, mul_comm, div_mul_cancel₀ x hs]
  have hscy : sin c * sin θ = y := by
    by_cases hs : sin c = 0
    · have hxy0 : x ^ 2 + y ^ 2 = 0 := by
        rw [← hssq, hs]
        ring
      have hy0 : y = 0 := by nlinarith [sq_nonneg x, sq_nonneg y]
      rw [hs, hy0]
      ring
    · have hsq : Real.sqrt (x ^ 2 + y ^ 2) = sin c := by
        rw [← hssq, sqrt_sq hsnn]
      rw [hθ, sin_atan2, hsq, mul_comm, div_mul_cancel₀ y hs]
  refine ⟨?_, ?_, ?_⟩
  · linear_combination sin φ2 * P1 + sin φ1 * hcoscK + cos φ1 * hscx + cos φ1 * hx
  · linear_combination cos φ1 * hscy + cos φ1 * hy
  · linear_combination hcoscK

/-- `destination_point` applied to `bearing` and `haversine` of a pair of
points away from the poles reproduces the target latitude exactly and the
target longitude up to a whole number of turns. -/
theorem destination_bearing_exact (lat1 lon1 lat2 lon2 : ℝ)
    (h1 : |lat1| < 90) (h2 : |lat2| < 90) :
    ∃ k : ℤ, destination_point lat1 lon1 (bearing lat1 lon1 lat2 lon2)
      (haversine lat1 lon1 lat2 lon2) = (lat2, lon2 - 360 * (k : ℝ)) := by
  have hφ1 : |deg2rad lat1| < π / 2 := abs_deg2rad_lt_halfpi lat1 h1
  have hφ2 : |deg2rad lat2| < π / 2 := abs_deg2rad_lt_halfpi lat2 h2
  have hc1 : 0 < cos (deg2rad lat1) :=
    cos_pos_of_mem_Ioo ⟨(abs_lt.mp hφ1).1, (abs_lt.mp hφ1).2⟩
  have hc2 : 0 < cos (deg2rad lat2) :=
    cos_pos_of_mem_Ioo ⟨(abs_lt.mp hφ2).1, (abs_lt.mp hφ2).2⟩
  obtain ⟨hlat, hnum, hden⟩ :=
    roundtrip_core (deg2rad lat1) (deg2rad lat2) (deg2rad (lon2 - lon1))
      (sin (deg2rad (lat2 - lat1) / 2) ^ 2 +
        cos (deg2rad lat1) * cos (deg2rad lat2) *
          sin (deg2rad (lon2 - lon1) / 2) ^ 2)
      (2 * atan2 (Real.sqrt (sin (deg2rad (lat2 - lat1) / 2) ^ 2 +
          cos (deg2rad lat1) * cos (deg2rad lat2) *
            sin (deg2rad (lon2 - lon1) / 2) ^ 2))
        (Real.sqrt (1 - (sin (deg2rad (lat2 - lat1) / 2) ^ 2 +
          cos (deg2rad lat1) * cos (deg2rad lat2) *
            sin (deg2rad (lon2 - lon1) / 2) ^ 2))))
      (cos (deg2rad lat1) * sin (deg2rad lat2) -
        sin (deg2rad lat1) * cos (deg2rad lat2) * cos (deg2rad (lon2 - lon1)))
      (sin (deg2rad (lon2 - lon1)) * cos (deg2rad lat2))
      (atan2 (sin (deg2rad (lon2 - lon1)) * cos (deg2rad lat2))
        (cos (deg2rad lat1) * sin (deg2rad lat2) -
          sin (deg2rad lat1) * cos (deg2rad lat2) * cos (deg2rad (lon2 - lon1))))
      hc1 hc2 (by rw [deg2rad_sub]) rfl rfl rfl rfl
  obtain ⟨k, hk⟩ := atan2_cos_sin (deg2rad (lon2 - lon1))
  refine ⟨k, ?_⟩
  have hR : EARTH_RADIUS_M ≠ 0 := by
    rw [EARTH_RADIUS_M]
    norm_num
  have hd : EARTH_RADIUS_M * (2 * atan2 (Real.sqrt (sin (deg2rad (lat2 - lat1) / 2) ^ 2 +
        cos (deg2rad lat1) * cos (deg2rad lat2) *
          sin (deg2rad (lon2 - lon1) / 2) ^ 2))
      (Real.sqrt (1 - (sin (deg2rad (lat2 - lat1) / 2) ^ 2 +
        cos (deg2rad lat1) * cos (deg2rad lat2) *
          sin (deg2rad (lon2 - lon1) / 2) ^ 2)))) / EARTH_RADIUS_M =
      2 * atan2 (Real.sqrt (sin (deg2rad (lat2 - lat1) / 2) ^ 2 +
        cos (deg2rad lat1) * cos (deg2rad lat2) *
          sin (deg2rad (lon2 - lon1) / 2) ^ 2))
      (Real.sqrt (1 - (sin (deg2rad (lat2 - lat1) / 2) ^ 2 +
        cos (deg2rad lat1) * cos (deg2rad lat2) *
          sin (deg2rad (lon2 - lon1) / 2) ^ 2))) :=
    mul_div_cancel_left₀ _ hR
  have hlo : -(π / 2) ≤ deg2rad lat2 := (abs_lt.mp hφ2).1.le
  have hhi : deg2rad lat2 ≤ π / 2 := (abs_lt.mp hφ2).2.le
  simp only [destination_point, haversine, bearing]
  rw [hd, cos_deg2rad_wrap_360, sin_deg2rad_wrap_360, deg2rad_rad2deg, hlat,
    arcsin_sin hlo hhi, hnum, hden,
    atan2_scale (sin (deg2rad (lon2 - lon1))) (cos (deg2rad (lon2 - lon1)))
      (cos (deg2rad lat1) * cos (deg2rad lat2)) (mul_pos hc1 hc2),
    hk, rad2deg_deg2rad, Prod.mk.injEq]
  refine ⟨rfl, ?_⟩
  rw [rad2deg, deg2rad, deg2rad]
  field_simp
  ring

theorem haversine_self_band (lat lon : ℝ) (k : ℤ) :
    haversine lat (lon - 360 * (k : ℝ)) lat lon = 0 := by
  simp only [haversine]
  have e1 : deg2rad (lat - lat) / 2 = 0 := by
    rw [deg2rad]
    ring
  have e2 : deg2rad (lon - (lon - 360 * (k : ℝ))) / 2 = (k : ℝ) * π := by
    rw [deg2rad]
    ring
  rw [e1, e2, sin_zero, sin_int_mul_pi]
  rw [show (0:ℝ) ^ 2 + cos (deg2rad lat) * cos (deg2rad lat) * 0 ^ 2 = 0 by ring]
  rw [Real.sqrt_zero, sub_zero, Real.sqrt_one, atan2_zero_pos 1 (by norm_num)]
  ring

/-- **C7.** For every pair of points away from the poles (`|lat| < 90`),
feeding `bearing(A, B)` and the haversine distance `haversine(A, B)` into
`destination_point` starting from `A` lands within 1 metre of `B`: the
round trip is in fact exact (same latitude, longitude up to whole turns),
so the residual haversine distance to `B` is `0 < 1`.  The distinctness of
`A` and `B` is not even needed. -/
theorem bearing_destination_roundtrip (lat1 lon1 lat2 lon2 : ℝ)
    (h1 : |lat1| < 90) (h2 : |lat2| < 90)
    (hne : (lat1, lon1) ≠ (lat2, lon2)) :
    haversine (destination_point lat1 lon1 (bearing lat1 lon1 lat2 lon2)
        (haversine lat1 lon1 lat2 lon2)).1
      (destination_point lat1 lon1 (bearing lat1 lon1 lat2 lon2)
        (haversine lat1 lon1 lat2 lon2)).2 lat2 lon2 < 1 := by
  obtain ⟨k, hk⟩ := destination_bearing_exact lat1 lon1 lat2 lon2 h1 h2
  rw [hk]
  rw [haversine_self_band lat2 lon2 k]
  norm_num

/-- Concrete instance of the C7 round trip: `A = (0°N, 0°E)`,
`B = (10°N, 20°E)`. -/
theorem bearing_destination_roundtrip_witness :
    |(0:ℝ)| < 90 ∧ |(10:ℝ)| < 90 ∧ (((0:ℝ), (0:ℝ)) ≠ ((10:ℝ), (20:ℝ))) ∧
      haversine (destination_point 0 0 (bearing 0 0 10 20) (haversine 0 0 10 20)).1
        (destination_point 0 0 (bearing 0 0 10 20) (haversine 0 0 10 20)).2
        10 20 < 1 :=
  ⟨by norm_num, by norm_num, by norm_num [Prod.ext_iff],
    bearing_destination_roundtrip 0 0 10 20 (by norm_num) (by norm_num)
      (by norm_num [Prod.ext_iff])⟩

end
